import Mathlib

set_option maxHeartbeats 1000000

/-!
Shallow embedding of
`src/stories/Sortable/MultipleItemDragging/MultipleItemDragging.story.tsx`.

The component keeps four pieces of React state — `items` (the membership
mapping from container identifier to ordered item list), `selectedItems`,
`clonedItems` (the rollback snapshot) and `activeId` — plus the mutable ref
`activeContainerRef`.  The `DndContext` callbacks `onDragStart`,
`onDragOver`, `onDragEnd` and `onDragCancel`, together with
`onSelectionChanged` and the document-level click handler, are the only
mutators.  Each is translated below as a pure transition on `AppState`.

Helpers imported from the dnd-kit packages (`arrayMove`, `rectIntersection`,
`closestRect`) live in this repository but outside `src/`; they are modelled
from the spec, each marked `Modelled from the spec:` in its doc comment.
-/

/-- A JavaScript array element: a string item identifier, or the JavaScript
value `undefined` (indexing an array out of range yields `undefined`, and
`undefined` can be spliced into an array like any other value). -/
inductive JsVal where
  | str (s : String)
  | undef
  deriving DecidableEq

/-- The membership mapping (`items` state): container identifier to ordered
sequence.  Identifiers that are not container keys are mapped to `[]`;
`findContainer` and the handlers only ever consult the keys in
`containerKeys`. -/
abbrev Items := String → List JsVal

/-- `const TRASH_DROPPABLE_ID = 'trash'`. -/
def TRASH_DROPPABLE_ID : String := "trash"

/-- The keys of the initial `items` object, in insertion order:
`{A, B, C, [TRASH_DROPPABLE_ID]}`.  The handlers never add or remove keys. -/
def containerKeys : List String := ["A", "B", "C", TRASH_DROPPABLE_ID]

/-- `createRange(itemCount, (index) => c + index)` for a container prefix. -/
def createRangeIds (c : String) (n : Nat) : List JsVal :=
  (List.range n).map (fun i => JsVal.str (c ++ toString i))

/-- The default initial membership mapping (`itemCount = 3`):
`A = [A0,A1,A2]`, `B = [B0,B1,B2]`, `C = [C0,C1,C2]`, trash empty. -/
def initItems : Items := fun k =>
  if k = "A" then createRangeIds "A" 3
  else if k = "B" then createRangeIds "B" 3
  else if k = "C" then createRangeIds "C" 3
  else []

/-- JavaScript `Array.prototype.indexOf`: the index of the first occurrence,
or `-1` when the value does not occur. -/
def jsIndexOf : List JsVal → JsVal → Int
  | [], _ => -1
  | x :: xs, v =>
    if x = v then 0
    else
      let r := jsIndexOf xs v
      if r < 0 then -1 else r + 1

/-- JavaScript array indexing `l[i]`: the element when `0 ≤ i < length`, and
the JavaScript value `undefined` otherwise. -/
def jsGet (l : List JsVal) (i : Int) : JsVal :=
  if i < 0 then JsVal.undef else (l.get? i.toNat).getD JsVal.undef

/-- `findContainer` from the story: `if (id in items) return id;` then
`Object.keys(items).find((key) => items[key].includes(id))`. -/
def findContainer (items : Items) (id : String) : Option String :=
  if id ∈ containerKeys then some id
  else containerKeys.find? (fun key => decide (JsVal.str id ∈ items key))

/-- The relevant React state of `SelectableSortable`, together with the
mutable ref `activeContainerRef`. -/
structure AppState where
  items : Items
  selectedItems : List String
  clonedItems : Option Items
  activeId : Option String
  activeContainer : Option String

/-- The initial state: default items, empty selection, no clone snapshot,
no active drag, `activeContainerRef.current = undefined`. -/
def initState : AppState :=
  { items := initItems, selectedItems := [], clonedItems := none,
    activeId := none, activeContainer := none }

/-- `onSelectionChanged(id, isShiftSelect)`: shift-click toggles the item's
membership in the selection; a plain click clears the whole selection. -/
def onSelectionChanged (s : AppState) (id : String) (isShiftSelect : Bool) :
    AppState :=
  if isShiftSelect then
    if id ∈ s.selectedItems then
      { s with selectedItems := s.selectedItems.filter (fun itemId => itemId ≠ id) }
    else
      { s with selectedItems := s.selectedItems ++ [id] }
  else
    { s with selectedItems := [] }

/-- The document-level `click` listener: when the click target is not an
item's element, `setSelectedItems([])`. -/
def clearSelectionOutsideClick (s : AppState) : AppState :=
  { s with selectedItems := [] }

/-- The `reduce` inside `onDragStart`: every selected item other than the
active one is removed from its container's sequence.  As in the source, the
container lookup runs against the mapping captured at render time (`orig`),
while the filter is applied to the accumulator. -/
def removeSelected (orig : Items) (selected : List String) (activeId : String) :
    Items :=
  selected.foldl
    (fun ret selectedItem =>
      if selectedItem = activeId then ret
      else
        match findContainer orig selectedItem with
        | none => ret
        | some container =>
          fun k =>
            if k = container then
              (ret container).filter (fun item => item ≠ JsVal.str selectedItem)
            else ret k)
    orig

/-- `onDragStart({active})`: record the active id, snapshot `items` into
`clonedItems`, extend a non-empty selection with the active id when it is not
yet selected, record the tracking container, and remove every other selected
item from its container. -/
def onDragStart (s : AppState) (activeId : String) : AppState :=
  let selected' :=
    if s.selectedItems.length ≠ 0 ∧ activeId ∉ s.selectedItems then
      s.selectedItems ++ [activeId]
    else s.selectedItems
  let activeContainer := findContainer s.items activeId
  let items' :=
    if s.selectedItems.length > 0 then removeSelected s.items s.selectedItems activeId
    else s.items
  { items := items', selectedItems := selected', clonedItems := some s.items,
    activeId := some activeId, activeContainer := activeContainer }

/-- The data carried by a (non-null) `over` entry of a drag-over event: the
over identifier, `draggingRect.top`, and `over.clientRect.bottom` and
`.height`, all supplied live by the layout collaborator. -/
structure OverData where
  overId : String
  dragTop : ℚ
  overBottom : ℚ
  overHeight : ℚ
  deriving DecidableEq

/-- `onDragOver({over, draggingRect})`: when the over identifier resolves to
a container different from the tracking container, remove the active item
from the tracking container, splice it into the new container at the computed
index, and update the tracking container ref. -/
def onDragOver (s : AppState) (d : Option OverData) : AppState :=
  match d with
  | none => s
  | some d =>
    match findContainer s.items d.overId, s.activeContainer, s.activeId with
    | some overContainer, some activeContainer, some activeId =>
      if activeContainer ≠ overContainer then
        let activeItems := s.items activeContainer
        let overItems := s.items overContainer
        let activeIndex := jsIndexOf activeItems (JsVal.str activeId)
        let overIndex := jsIndexOf overItems (JsVal.str d.overId)
        let isBelowLastItem :=
          overIndex = (overItems.length : Int) - 1 ∧
            d.dragTop > d.overBottom - d.overHeight / 2
        let modifier : Int := if isBelowLastItem then 1 else 0
        let newIndex : Int :=
          if overIndex ≥ 0 then overIndex + modifier
          else (overItems.length : Int) + 1
        let newOver :=
          overItems.take newIndex.toNat ++ [jsGet activeItems activeIndex] ++
            overItems.drop newIndex.toNat
        { s with
          activeContainer := some overContainer,
          items := fun k =>
            if k = overContainer then newOver
            else if k = activeContainer then
              activeItems.filter (fun item => item ≠ JsVal.str activeId)
            else s.items k }
      else s
    | _, _, _ => s

/-- Modelled from the spec: `arrayMove` (imported from the sortable preset,
whose source is not under `src/`) performs "a stable array move" (§4.4): the
element at index `fromIdx` is removed and re-inserted at index `toIdx`.  When
`fromIdx` is not a valid index the sequence is returned unchanged; the
insertion position is clamped to the bounds of the sequence. -/
def arrayMove (l : List JsVal) (fromIdx toIdx : Int) : List JsVal :=
  if h : 0 ≤ fromIdx ∧ fromIdx.toNat < l.length then
    let x := l.get ⟨fromIdx.toNat, h.2⟩
    let l' := l.eraseIdx fromIdx.toNat
    l'.take toIdx.toNat ++ [x] ++ l'.drop toIdx.toNat
  else l

/-- `onDragEnd({over})`: guard on a live drag and a tracking container; a
drop on the trash identifier empties the trash container; otherwise a pending
multi-selection is moved and spliced after the active item, a plain drop
reorders when `activeIndex !== overIndex`, and a drop on the active item's
own position is a no-op. -/
def onDragEnd (s : AppState) (overId : Option String) : AppState :=
  match s.activeId with
  | none => s
  | some activeId =>
    match overId, s.activeContainer with
    | none, _ => { s with activeId := none }
    | some _, none => { s with activeId := none }
    | some overId, some activeContainer =>
      if overId = TRASH_DROPPABLE_ID then
        { s with
          items := fun k => if k = TRASH_DROPPABLE_ID then [] else s.items k,
          activeId := none }
      else
        match findContainer s.items overId with
        | none => { s with activeId := none }
        | some overContainer =>
          let activeIndex := jsIndexOf (s.items activeContainer) (JsVal.str activeId)
          let overIndex := jsIndexOf (s.items overContainer) (JsVal.str overId)
          if s.selectedItems.length ≠ 0 then
            let moved := arrayMove (s.items overContainer) activeIndex overIndex
            let spliced :=
              moved.take (overIndex + 1).toNat ++
                (s.selectedItems.filter (fun item => item ≠ activeId)).map JsVal.str ++
                moved.drop (overIndex + 1).toNat
            { s with
              items := fun k => if k = overContainer then spliced else s.items k,
              activeId := none }
          else if activeIndex ≠ overIndex then
            { s with
              items := fun k =>
                if k = overContainer then
                  arrayMove (s.items overContainer) activeIndex overIndex
                else s.items k,
              activeId := none }
          else { s with activeId := none }

/-- `onDragCancel()`: restore `items` from `clonedItems` when a snapshot
exists, clear the active id, and clear the snapshot. -/
def onDragCancel (s : AppState) : AppState :=
  let items' :=
    match s.clonedItems with
    | some cloned => cloned
    | none => s.items
  { s with items := items', activeId := none, clonedItems := none }

/-- The events the component receives: the four gesture events from the
input-capture collaborator, plus the selection interactions. -/
inductive Ev where
  | start (activeId : String)
  | move (d : Option OverData)
  | dragEnd (overId : Option String)
  | cancel
  | shiftClick (id : String)
  | plainClick (id : String)
  | outsideClick
  deriving DecidableEq

/-- One handler invocation. -/
def step (s : AppState) : Ev → AppState
  | .start a => onDragStart s a
  | .move d => onDragOver s d
  | .dragEnd o => onDragEnd s o
  | .cancel => onDragCancel s
  | .shiftClick id => onSelectionChanged s id true
  | .plainClick id => onSelectionChanged s id false
  | .outsideClick => clearSelectionOutsideClick s

/-- Run a sequence of events. -/
def run (s : AppState) (evs : List Ev) : AppState := evs.foldl step s

/-- The gesture-event alphabet (start/move/end/cancel), as a decidable
predicate on events. -/
def isGestureEv : Ev → Bool
  | .start _ => true
  | .move _ => true
  | .dragEnd _ => true
  | .cancel => true
  | _ => false

/-- Total number of occurrences of a value across all containers' sequences
of a membership mapping. -/
def totalCount (v : JsVal) (m : Items) : Nat :=
  (m "A").count v + (m "B").count v + (m "C").count v +
    (m TRASH_DROPPABLE_ID).count v

/-- A membership mapping is good when every item identifier occurs at most
once across all containers, and only identifiers of the original item set
occur. -/
def GoodMap (m : Items) : Prop :=
  ∀ id : String,
    totalCount (JsVal.str id) m ≤ 1 ∧
      (0 < totalCount (JsVal.str id) m → 0 < totalCount (JsVal.str id) initItems)

/-- The inductive invariant for runs over the gesture-event alphabet: the
selection stays empty, the live mapping and any rollback snapshot are good,
and the tracking container is always one of the container keys. -/
def SessionInv (s : AppState) : Prop :=
  s.selectedItems = [] ∧ GoodMap s.items ∧
    (∀ m, s.clonedItems = some m → GoodMap m) ∧
    (∀ c, s.activeContainer = some c → c ∈ containerKeys)

/-- A bounding rectangle as supplied by the layout collaborator. -/
structure Rect where
  top : ℚ
  bottom : ℚ
  left : ℚ
  right : ℚ
  deriving DecidableEq

/-- Modelled from the spec: a non-zero-area intersection between two
rectangles ("any non-zero intersection", §4.3 step 1). -/
def rectsOverlap (a b : Rect) : Bool :=
  decide (a.left < b.right ∧ b.left < a.right ∧ a.top < b.bottom ∧ b.top < a.bottom)

/-- Modelled from the spec: `rectIntersection` (imported from the core
package, whose source is not under `src/`) reports a candidate whose
rectangle has a non-zero intersection with the dragged rectangle, or none;
candidates are scanned in registration order. -/
def rectIntersection (cands : List (String × Rect)) (r : Rect) : Option String :=
  (cands.find? (fun p => rectsOverlap p.2 r)).map Prod.fst

/-- Squared Euclidean distance between the centers of two rectangles. -/
def centerDistSq (a b : Rect) : ℚ :=
  ((a.left + a.right) / 2 - (b.left + b.right) / 2) ^ 2 +
    ((a.top + a.bottom) / 2 - (b.top + b.bottom) / 2) ^ 2

/-- Modelled from the spec: `closestRect` (imported from the core package,
whose source is not under `src/`) picks the candidate whose rectangle center
is closest in Euclidean distance to the dragged rectangle's center (compared
via squared distances), ties broken by first-registered order (§4.3 step 2);
none when no candidate exists. -/
def closestRect (cands : List (String × Rect)) (r : Rect) : Option String :=
  match cands with
  | [] => none
  | c :: cs =>
    some ((cs.foldl
      (fun best cand =>
        if centerDistSq cand.2 r < centerDistSq best.2 r then cand else best) c).1)

/-- `customCollisionDetectionStrategy` from the story: if a rectangle
registered under the trash identifier intersects the dragged rectangle, the
trash identifier wins; otherwise the closest of the remaining candidates. -/
def customCollisionDetectionStrategy (clientRects : List (String × Rect))
    (clientRect : Rect) : Option String :=
  let trashRect := clientRects.filter (fun p => p.1 = TRASH_DROPPABLE_ID)
  if (rectIntersection trashRect clientRect).isSome then
    some TRASH_DROPPABLE_ID
  else
    closestRect (clientRects.filter (fun p => p.1 ≠ TRASH_DROPPABLE_ID)) clientRect

/-! ### Helper lemmas about the list primitives -/

theorem jsIndexOf_of_not_mem (l : List JsVal) (v : JsVal) (h : v ∉ l) :
    jsIndexOf l v = -1 := by
  induction l with
  | nil => rfl
  | cons x xs ih =>
    simp only [List.mem_cons, not_or] at h
    simp only [jsIndexOf]
    rw [if_neg (fun hx => h.1 hx.symm), ih h.2]
    norm_num

theorem jsIndexOf_nonneg (l : List JsVal) (v : JsVal) (h : v ∈ l) :
    0 ≤ jsIndexOf l v := by
  induction l with
  | nil => simp at h
  | cons x xs ih =>
    simp only [jsIndexOf]
    by_cases hx : x = v
    · rw [if_pos hx]
    · rw [if_neg hx]
      rcases List.mem_cons.mp h with h' | h'
      · exact absurd h'.symm hx
      · have := ih h'
        rw [if_neg (by omega)]
        omega

theorem jsGet_jsIndexOf (l : List JsVal) (v : JsVal) (h : v ∈ l) :
    jsGet l (jsIndexOf l v) = v := by
  induction l with
  | nil => simp at h
  | cons x xs ih =>
    simp only [jsIndexOf]
    by_cases hx : x = v
    · rw [if_pos hx]
      simp [jsGet, hx]
    · rw [if_neg hx]
      rcases List.mem_cons.mp h with h' | h'
      · exact absurd h'.symm hx
      · have hnn := jsIndexOf_nonneg xs v h'
        rw [if_neg (by omega)]
        have ht : (jsIndexOf xs v + 1).toNat = (jsIndexOf xs v).toNat + 1 := by omega
        simp only [jsGet, if_neg (by omega : ¬jsIndexOf xs v + 1 < 0), ht,
          List.get?_cons_succ]
        simpa [jsGet, if_neg (by omega : ¬jsIndexOf xs v < 0)] using ih h'

theorem jsGet_neg (l : List JsVal) (i : Int) (h : i < 0) : jsGet l i = JsVal.undef := by
  simp [jsGet, h]

theorem count_filter_ne (l : List JsVal) (v w : JsVal) :
    (l.filter (fun x => x ≠ w)).count v = if v = w then 0 else l.count v := by
  split_ifs with h
  · subst h
    refine List.count_eq_zero.mpr (fun hmem => ?_)
    have := (List.mem_filter.mp hmem).2
    simp at this
  · exact List.count_filter (by simp [h])

theorem count_splice (l : List JsVal) (n : Nat) (x v : JsVal) :
    (l.take n ++ [x] ++ l.drop n).count v = l.count v + if x = v then 1 else 0 := by
  rw [List.count_append, List.count_append]
  conv_rhs => rw [← List.take_append_drop n l, List.count_append]
  have hx : List.count v [x] = if x = v then 1 else 0 := by
    rcases eq_or_ne x v with rfl | h
    · simp
    · simp [List.count_singleton', beq_iff_eq, Ne.symm h, h]
  rw [hx]
  ring

theorem count_arrayMove (l : List JsVal) (f t : Int) (v : JsVal) :
    (arrayMove l f t).count v = l.count v := by
  unfold arrayMove
  split
  case isTrue h =>
    rw [count_splice, List.eraseIdx_eq_take_drop_succ, List.count_append]
    conv_rhs => rw [← List.take_append_drop f.toNat l]
    rw [List.count_append]
    have hd : l.drop f.toNat = l.get ⟨f.toNat, h.2⟩ :: l.drop (f.toNat + 1) := by
      simpa using List.drop_eq_getElem_cons h.2
    rw [hd, List.count_cons]
    rcases eq_or_ne (l.get ⟨f.toNat, h.2⟩) v with h1 | h1
    · simp only [h1, beq_self_eq_true, if_pos, if_true]
      omega
    · simp only [beq_iff_eq, h1, if_neg, if_false]
      omega
  case isFalse => rfl

theorem findContainer_mem_keys (m : Items) (o c : String)
    (h : findContainer m o = some c) : c ∈ containerKeys := by
  unfold findContainer at h
  split at h
  next ho => cases h; exact ho
  next => exact List.mem_of_find?_eq_some h

theorem totalCount_update1 (m : Items) (c : String) (A : List JsVal) (v : JsVal)
    (hc : c ∈ containerKeys) :
    totalCount v (fun k => if k = c then A else m k) + (m c).count v
      = totalCount v m + A.count v := by
  simp only [containerKeys, TRASH_DROPPABLE_ID, List.mem_cons, List.mem_singleton,
    List.not_mem_nil, or_false] at hc
  rcases hc with rfl | rfl | rfl | rfl <;>
    simp [totalCount, TRASH_DROPPABLE_ID] <;> ring

theorem totalCount_update2 (m : Items) (c c2 : String) (A B : List JsVal) (v : JsVal)
    (hc : c ∈ containerKeys) (hc2 : c2 ∈ containerKeys) (hne : c ≠ c2) :
    totalCount v (fun k => if k = c2 then B else if k = c then A else m k)
        + (m c).count v + (m c2).count v
      = totalCount v m + A.count v + B.count v := by
  simp only [containerKeys, TRASH_DROPPABLE_ID, List.mem_cons, List.mem_singleton,
    List.not_mem_nil, or_false] at hc hc2
  rcases hc with rfl | rfl | rfl | rfl <;> rcases hc2 with rfl | rfl | rfl | rfl <;>
    first
      | exact absurd rfl hne
      | (simp [totalCount, TRASH_DROPPABLE_ID] <;> ring)

theorem totalCount_move_le (m : Items) (ac oc a : String) (N : Nat) (id : String)
    (hackey : ac ∈ containerKeys) (hockey : oc ∈ containerKeys) (hne : ac ≠ oc) :
    totalCount (JsVal.str id)
      (fun k =>
        if k = oc then
          (m oc).take N ++ [jsGet (m ac) (jsIndexOf (m ac) (JsVal.str a))] ++
            (m oc).drop N
        else if k = ac then (m ac).filter (fun item => item ≠ JsVal.str a)
        else m k)
      ≤ totalCount (JsVal.str id) m := by
  have h2 := totalCount_update2 m ac oc
    ((m ac).filter (fun item => item ≠ JsVal.str a))
    ((m oc).take N ++ [jsGet (m ac) (jsIndexOf (m ac) (JsVal.str a))] ++ (m oc).drop N)
    (JsVal.str id) hackey hockey hne
  have hf := count_filter_ne (m ac) (JsVal.str id) (JsVal.str a)
  by_cases hmem : JsVal.str a ∈ m ac
  · have hget := jsGet_jsIndexOf (m ac) (JsVal.str a) hmem
    rw [hget] at h2 ⊢
    have hs := count_splice (m oc) N (JsVal.str a) (JsVal.str id)
    by_cases hidA : JsVal.str id = JsVal.str a
    · rw [if_pos hidA.symm] at hs
      rw [if_pos hidA] at hf
      have hpos : 0 < (m ac).count (JsVal.str id) := by
        rw [hidA]; exact List.count_pos_iff.mpr hmem
      omega
    · rw [if_neg (fun hh => hidA hh.symm)] at hs
      rw [if_neg hidA] at hf
      omega
  · have hidx := jsIndexOf_of_not_mem (m ac) (JsVal.str a) hmem
    have hget : jsGet (m ac) (jsIndexOf (m ac) (JsVal.str a)) = JsVal.undef := by
      rw [hidx]; exact jsGet_neg _ _ (by norm_num)
    rw [hget] at h2 ⊢
    have hs := count_splice (m oc) N JsVal.undef (JsVal.str id)
    rw [if_neg (by simp)] at hs
    by_cases hidA : JsVal.str id = JsVal.str a
    · rw [if_pos hidA] at hf
      have hz : (m ac).count (JsVal.str id) = 0 := by
        rw [hidA]; exact List.count_eq_zero.mpr hmem
      omega
    · rw [if_neg hidA] at hf
      omega

theorem onDragOver_count_le (s : AppState) (d : Option OverData) (id : String)
    (hkeys : ∀ c, s.activeContainer = some c → c ∈ containerKeys) :
    totalCount (JsVal.str id) (onDragOver s d).items
      ≤ totalCount (JsVal.str id) s.items := by
  cases d with
  | none => exact le_refl _
  | some dd =>
    rcases hfc : findContainer s.items dd.overId with _ | oc
    · simp [onDragOver, hfc]
    rcases hac : s.activeContainer with _ | ac
    · simp [onDragOver, hfc, hac]
    rcases hai : s.activeId with _ | a
    · simp [onDragOver, hfc, hac, hai]
    by_cases hne : ac ≠ oc
    · simp only [onDragOver, hfc, hac, hai, if_pos hne]
      exact totalCount_move_le s.items ac oc a _ id (hkeys ac hac)
        (findContainer_mem_keys _ _ _ hfc) hne
    · simp [onDragOver, hfc, hac, hai, hne]

theorem onDragEnd_selectedItems (s : AppState) (o : Option String) :
    (onDragEnd s o).selectedItems = s.selectedItems := by
  unfold onDragEnd
  repeat' split
  all_goals first
    | rfl
    | (dsimp only; split <;> rfl)

theorem onDragEnd_clonedItems (s : AppState) (o : Option String) :
    (onDragEnd s o).clonedItems = s.clonedItems := by
  unfold onDragEnd
  repeat' split
  all_goals first
    | rfl
    | (dsimp only; split <;> rfl)

theorem onDragEnd_activeContainer (s : AppState) (o : Option String) :
    (onDragEnd s o).activeContainer = s.activeContainer := by
  unfold onDragEnd
  repeat' split
  all_goals first
    | rfl
    | (dsimp only; split <;> rfl)

theorem onDragOver_selectedItems (s : AppState) (d : Option OverData) :
    (onDragOver s d).selectedItems = s.selectedItems := by
  unfold onDragOver
  repeat' split
  all_goals rfl

theorem onDragOver_clonedItems (s : AppState) (d : Option OverData) :
    (onDragOver s d).clonedItems = s.clonedItems := by
  unfold onDragOver
  repeat' split
  all_goals rfl

theorem onDragCancel_selectedItems (s : AppState) :
    (onDragCancel s).selectedItems = s.selectedItems := by
  unfold onDragCancel
  repeat' split
  all_goals rfl

theorem onDragEnd_count_le (s : AppState) (o : Option String) (id : String)
    (hsel : s.selectedItems = []) :
    totalCount (JsVal.str id) (onDragEnd s o).items
      ≤ totalCount (JsVal.str id) s.items := by
  rcases hai : s.activeId with _ | a
  · simp [onDragEnd, hai]
  rcases o with _ | oid
  · simp [onDragEnd, hai]
  rcases hac : s.activeContainer with _ | ac
  · simp [onDragEnd, hai, hac]
  by_cases htrash : oid = TRASH_DROPPABLE_ID
  · simp only [onDragEnd, hai, hac, if_pos htrash]
    have h1 := totalCount_update1 s.items TRASH_DROPPABLE_ID [] (JsVal.str id)
      (by simp [containerKeys])
    simp only [List.count_nil] at h1
    omega
  · simp only [onDragEnd, hai, hac, if_neg htrash]
    rcases hfc : findContainer s.items oid with _ | oc
    · simp
    simp only [hsel, List.length_nil, ne_eq, not_true_eq_false, if_false,
      reduceIte]
    split_ifs with hio
    · dsimp only
      exact le_refl _
    · dsimp only
      have h1 := totalCount_update1 s.items oc
        (arrayMove (s.items oc) (jsIndexOf (s.items ac) (JsVal.str a))
          (jsIndexOf (s.items oc) (JsVal.str oid)))
        (JsVal.str id) (findContainer_mem_keys _ _ _ hfc)
      have h2 := count_arrayMove (s.items oc) (jsIndexOf (s.items ac) (JsVal.str a))
        (jsIndexOf (s.items oc) (JsVal.str oid)) (JsVal.str id)
      omega

theorem GoodMap_of_le (m m' : Items) (hg : GoodMap m)
    (hle : ∀ id, totalCount (JsVal.str id) m' ≤ totalCount (JsVal.str id) m) :
    GoodMap m' := by
  intro id
  obtain ⟨h1, h2⟩ := hg id
  exact ⟨le_trans (hle id) h1, fun hp => h2 (lt_of_lt_of_le hp (hle id))⟩

theorem onDragStart_SessionInv (s : AppState) (a : String) (h : SessionInv s) :
    SessionInv (onDragStart s a) := by
  obtain ⟨hsel, hgood, hclone, hkeys⟩ := h
  refine ⟨?_, ?_, ?_, ?_⟩
  · simp [onDragStart, hsel]
  · simpa [onDragStart, hsel] using hgood
  · intro m hm
    simp only [onDragStart] at hm
    cases hm
    exact hgood
  · intro c hc
    simp only [onDragStart] at hc
    exact findContainer_mem_keys _ _ _ hc

theorem onDragOver_SessionInv (s : AppState) (d : Option OverData)
    (h : SessionInv s) : SessionInv (onDragOver s d) := by
  obtain ⟨hsel, hgood, hclone, hkeys⟩ := h
  refine ⟨?_, ?_, ?_, ?_⟩
  · rw [onDragOver_selectedItems]; exact hsel
  · exact GoodMap_of_le s.items _ hgood (fun id => onDragOver_count_le s d id hkeys)
  · intro m hm
    rw [onDragOver_clonedItems] at hm
    exact hclone m hm
  · intro c hc
    cases d with
    | none => exact hkeys c hc
    | some dd =>
      rcases hfc : findContainer s.items dd.overId with _ | oc
      · simp only [onDragOver, hfc] at hc
        exact hkeys c hc
      rcases hac : s.activeContainer with _ | ac
      · simp only [onDragOver, hfc, hac] at hc
        simp at hc
      rcases hai : s.activeId with _ | a
      · simp only [onDragOver, hfc, hac, hai] at hc
        cases hc
        exact hkeys _ hac
      by_cases hne : ac ≠ oc
      · simp only [onDragOver, hfc, hac, hai, if_pos hne] at hc
        cases hc
        exact findContainer_mem_keys _ _ _ hfc
      · simp only [onDragOver, hfc, hac, hai, if_neg hne] at hc
        cases hc
        exact hkeys _ hac

theorem onDragEnd_SessionInv (s : AppState) (o : Option String)
    (h : SessionInv s) : SessionInv (onDragEnd s o) := by
  obtain ⟨hsel, hgood, hclone, hkeys⟩ := h
  refine ⟨?_, ?_, ?_, ?_⟩
  · rw [onDragEnd_selectedItems]; exact hsel
  · exact GoodMap_of_le s.items _ hgood (fun id => onDragEnd_count_le s o id hsel)
  · intro m hm
    rw [onDragEnd_clonedItems] at hm
    exact hclone m hm
  · intro c hc
    rw [onDragEnd_activeContainer] at hc
    exact hkeys c hc

theorem onDragCancel_SessionInv (s : AppState) (h : SessionInv s) :
    SessionInv (onDragCancel s) := by
  obtain ⟨hsel, hgood, hclone, hkeys⟩ := h
  refine ⟨?_, ?_, ?_, ?_⟩
  · rw [onDragCancel_selectedItems]; exact hsel
  · rcases hcl : s.clonedItems with _ | m
    · simpa [onDragCancel, hcl] using hgood
    · simpa [onDragCancel, hcl] using hclone m hcl
  · intro m hm
    simp [onDragCancel] at hm
  · intro c hc
    simp only [onDragCancel] at hc
    exact hkeys c hc

theorem GoodMap_initItems : GoodMap initItems := by
  intro id
  refine ⟨?_, fun h => h⟩
  have hA : initItems "A" = [JsVal.str "A0", JsVal.str "A1", JsVal.str "A2"] := by decide
  have hB : initItems "B" = [JsVal.str "B0", JsVal.str "B1", JsVal.str "B2"] := by decide
  have hC : initItems "C" = [JsVal.str "C0", JsVal.str "C1", JsVal.str "C2"] := by decide
  have hT : initItems TRASH_DROPPABLE_ID = [] := by decide
  by_cases hid : id ∈ ["A0", "A1", "A2", "B0", "B1", "B2", "C0", "C1", "C2"]
  · fin_cases hid <;> decide
  · have hz : totalCount (JsVal.str id) initItems = 0 := by
      simp only [List.mem_cons, List.not_mem_nil, or_false, not_or] at hid
      obtain ⟨n0, n1, n2, n3, n4, n5, n6, n7, n8⟩ := hid
      simp [totalCount, hA, hB, hC, hT, List.count_cons, n0, n1, n2, n3, n4,
        n5, n6, n7, n8]
    omega

theorem SessionInv_initState : SessionInv initState := by
  refine ⟨rfl, GoodMap_initItems, ?_, ?_⟩
  · intro m hm
    simp [initState] at hm
  · intro c hc
    simp [initState] at hc

theorem SessionInv_step (s : AppState) (e : Ev) (hg : isGestureEv e = true)
    (h : SessionInv s) : SessionInv (step s e) := by
  cases e with
  | start a => exact onDragStart_SessionInv s a h
  | move d => exact onDragOver_SessionInv s d h
  | dragEnd o => exact onDragEnd_SessionInv s o h
  | cancel => exact onDragCancel_SessionInv s h
  | shiftClick id => simp [isGestureEv] at hg
  | plainClick id => simp [isGestureEv] at hg
  | outsideClick => simp [isGestureEv] at hg

theorem SessionInv_run (evs : List Ev) (s : AppState) (h : SessionInv s)
    (hg : ∀ e ∈ evs, isGestureEv e = true) : SessionInv (run s evs) := by
  induction evs generalizing s with
  | nil => exact h
  | cons e rest ih =>
    exact ih (step s e) (SessionInv_step s e (hg e (by simp)) h)
      (fun x hx => hg x (by simp [hx]))

/-- C2: for any sequence of live cross-container moves during an Active
session started by a gesture start, cancelling restores the membership
mapping to its value immediately before the start. -/
theorem c2_cancel_roundtrip (s : AppState) (a : String)
    (mvs : List (Option OverData)) :
    (onDragCancel (mvs.foldl onDragOver (onDragStart s a))).items = s.items := by
  have hfold : ∀ (l : List (Option OverData)) (t : AppState),
      (l.foldl onDragOver t).clonedItems = t.clonedItems := by
    intro l
    induction l with
    | nil => intro t; rfl
    | cons d rest ih =>
      intro t
      rw [List.foldl_cons, ih, onDragOver_clonedItems]
  have hcl : (mvs.foldl onDragOver (onDragStart s a)).clonedItems = some s.items := by
    rw [hfold]
    rfl
  simp [onDragCancel, hcl]

/-- C3: whenever a rectangle registered under the trash identifier has a
non-zero intersection with the dragged rectangle, the collision strategy
reports the trash identifier, regardless of all other candidates. -/
theorem c3_trash_priority (cands : List (String × Rect)) (rect r : Rect)
    (hmem : (TRASH_DROPPABLE_ID, r) ∈ cands)
    (hover : rectsOverlap r rect = true) :
    customCollisionDetectionStrategy cands rect = some TRASH_DROPPABLE_ID := by
  simp only [customCollisionDetectionStrategy]
  rw [if_pos]
  simp only [rectIntersection, Option.isSome_map]
  have hx : (TRASH_DROPPABLE_ID, r) ∈
      cands.filter (fun p => decide (p.1 = TRASH_DROPPABLE_ID)) :=
    List.mem_filter.mpr ⟨hmem, by simp⟩
  rcases hfind : (cands.filter (fun p => decide (p.1 = TRASH_DROPPABLE_ID))).find?
      (fun p => rectsOverlap p.2 rect) with _ | p
  · exact absurd hover (by simpa using (List.find?_eq_none.mp hfind) _ hx)
  · simp [hfind]

/-- C4: a gesture end during a live drag whose resolved drop target is the
trash identifier leaves the trash container's sequence empty, whatever its
previous contents. -/
theorem c4_trash_empty_after_commit (s : AppState) (a c : String)
    (ha : s.activeId = some a) (hc : s.activeContainer = some c) :
    (onDragEnd s (some TRASH_DROPPABLE_ID)).items TRASH_DROPPABLE_ID = [] := by
  simp [onDragEnd, ha, hc]

/-- C4 witness. -/
theorem c4_trash_empty_after_commit_witness :
    (({ items := initItems, selectedItems := [], clonedItems := none,
        activeId := some "A1", activeContainer := some "A" } : AppState).activeId
        = some "A1") ∧
      (({ items := initItems, selectedItems := [], clonedItems := none,
          activeId := some "A1", activeContainer := some "A" } : AppState).activeContainer
          = some "A") ∧
      (onDragEnd
          { items := initItems, selectedItems := [], clonedItems := none,
            activeId := some "A1", activeContainer := some "A" }
          (some TRASH_DROPPABLE_ID)).items TRASH_DROPPABLE_ID = [] :=
  ⟨rfl, rfl, c4_trash_empty_after_commit _ "A1" "A" rfl rfl⟩

/-- C5 counterexample: a drag of `A1` with `A0` selected that drops on the
trash leaves the selection `["A0", "A1"]`, not empty. -/
theorem c5_counterexample :
    (run initState [Ev.shiftClick "A0", Ev.start "A1",
        Ev.move (some ⟨TRASH_DROPPABLE_ID, 0, 0, 0⟩),
        Ev.dragEnd (some TRASH_DROPPABLE_ID)]).selectedItems = ["A0", "A1"] ∧
      (run initState [Ev.shiftClick "A0", Ev.start "A1",
        Ev.move (some ⟨TRASH_DROPPABLE_ID, 0, 0, 0⟩),
        Ev.dragEnd (some TRASH_DROPPABLE_ID)]).selectedItems ≠ [] := by
  constructor
  · decide
  · decide

/-- C5 (amended): a gesture end — in particular a trash drop — and a gesture
cancel leave the selection set unchanged. -/
theorem c5_selection_unchanged (s : AppState) (o : Option String) :
    (onDragEnd s o).selectedItems = s.selectedItems ∧
      (onDragCancel s).selectedItems = s.selectedItems :=
  ⟨onDragEnd_selectedItems s o, onDragCancel_selectedItems s⟩

/-- C9: a drop on the active item's own position (same resolved container,
equal indices) with no pending selection leaves the membership mapping
unchanged. -/
theorem c9_noop_drop (s : AppState) (a c o : String)
    (hai : s.activeId = some a) (hac : s.activeContainer = some c)
    (hsel : s.selectedItems = []) (ht : o ≠ TRASH_DROPPABLE_ID)
    (hfc : findContainer s.items o = some c)
    (hidx : jsIndexOf (s.items c) (JsVal.str a) = jsIndexOf (s.items c) (JsVal.str o)) :
    (onDragEnd s (some o)).items = s.items := by
  simp only [onDragEnd, hai, hac, if_neg ht, hfc, hsel]
  simp [hidx]

/-- C9 witness. -/
theorem c9_noop_drop_witness :
    (({ items := initItems, selectedItems := [], clonedItems := none,
        activeId := some "A1", activeContainer := some "A" } : AppState).activeId
        = some "A1") ∧
      (findContainer initItems "A1" = some "A") ∧
      ("A1" ≠ TRASH_DROPPABLE_ID) ∧
      (onDragEnd
          { items := initItems, selectedItems := [], clonedItems := none,
            activeId := some "A1", activeContainer := some "A" }
          (some "A1")).items =
        ({ items := initItems, selectedItems := [], clonedItems := none,
           activeId := some "A1", activeContainer := some "A" } : AppState).items :=
  ⟨rfl, by decide, by decide,
    c9_noop_drop _ "A1" "A" "A1" rfl rfl rfl (by decide) (by decide) rfl⟩

/-- C3 witness. -/
theorem c3_trash_priority_witness :
    ((TRASH_DROPPABLE_ID, ({ top := 0, bottom := 2, left := 0, right := 2 } : Rect)) ∈
        ([(TRASH_DROPPABLE_ID, { top := 0, bottom := 2, left := 0, right := 2 }),
          ("A", { top := 0, bottom := 100, left := 0, right := 100 })] :
          List (String × Rect))) ∧
      rectsOverlap { top := 0, bottom := 2, left := 0, right := 2 }
          { top := 1, bottom := 3, left := 1, right := 3 } = true ∧
      customCollisionDetectionStrategy
          [(TRASH_DROPPABLE_ID, { top := 0, bottom := 2, left := 0, right := 2 }),
            ("A", { top := 0, bottom := 100, left := 0, right := 100 })]
          { top := 1, bottom := 3, left := 1, right := 3 } =
        some TRASH_DROPPABLE_ID :=
  ⟨by decide, by decide,
    c3_trash_priority
      [(TRASH_DROPPABLE_ID, { top := 0, bottom := 2, left := 0, right := 2 }),
        ("A", { top := 0, bottom := 100, left := 0, right := 100 })]
      { top := 1, bottom := 3, left := 1, right := 3 }
      { top := 0, bottom := 2, left := 0, right := 2 }
      (by decide) (by decide)⟩

/-- C7: with no selection, dragging `A1` and dropping it at `B1`'s position
(target index 1) yields `A = [A0, A2]` and `B = [B0, A1, B1, B2]`. -/
theorem c7_single_move_scenario :
    ((run initState [Ev.start "A1", Ev.move (some ⟨"B1", 0, 0, 0⟩),
        Ev.dragEnd (some "A1")]).items "A" = [JsVal.str "A0", JsVal.str "A2"]) ∧
      ((run initState [Ev.start "A1", Ev.move (some ⟨"B1", 0, 0, 0⟩),
        Ev.dragEnd (some "A1")]).items "B" =
        [JsVal.str "B0", JsVal.str "A1", JsVal.str "B1", JsVal.str "B2"]) := by
  constructor
  · decide
  · decide

/-- C6: with selection `{A0, A2}`, after gesture start on `A1` container `A`
is `[A1]` and `B` is unchanged; after the commit into `B` at target index 0,
`A = []` and `B = [A1, A0, A2, B0, B1, B2]`. -/
theorem c6_multi_drag_scenario :
    ((run initState [Ev.shiftClick "A0", Ev.shiftClick "A2"]).selectedItems =
        ["A0", "A2"]) ∧
      ((run initState [Ev.shiftClick "A0", Ev.shiftClick "A2",
          Ev.start "A1"]).items "A" = [JsVal.str "A1"]) ∧
      ((run initState [Ev.shiftClick "A0", Ev.shiftClick "A2",
          Ev.start "A1"]).items "B" =
        [JsVal.str "B0", JsVal.str "B1", JsVal.str "B2"]) ∧
      ((run initState [Ev.shiftClick "A0", Ev.shiftClick "A2", Ev.start "A1",
          Ev.move (some ⟨"B0", 0, 0, 0⟩), Ev.dragEnd (some "A1")]).items "A" = []) ∧
      ((run initState [Ev.shiftClick "A0", Ev.shiftClick "A2", Ev.start "A1",
          Ev.move (some ⟨"B0", 0, 0, 0⟩), Ev.dragEnd (some "A1")]).items "B" =
        [JsVal.str "A1", JsVal.str "A0", JsVal.str "A2", JsVal.str "B0",
          JsVal.str "B1", JsVal.str "B2"]) := by
  refine ⟨?_, ?_, ?_, ?_, ?_⟩ <;> decide

theorem filter_ne_eq_erase (l : List JsVal) (a : JsVal) (h : l.Nodup) :
    l.filter (fun x => x ≠ a) = l.erase a := by
  induction l with
  | nil => rfl
  | cons x xs ih =>
    have hx : x ∉ xs := (List.nodup_cons.mp h).1
    have hxs : xs.Nodup := (List.nodup_cons.mp h).2
    rcases eq_or_ne x a with rfl | hxa
    · rw [List.erase_cons_head, List.filter_cons, if_neg (by simp)]
      refine List.filter_eq_self.mpr (fun b hb => ?_)
      simp only [decide_eq_true_eq]
      exact fun hba => hx (hba ▸ hb)
    · rw [List.filter_cons, if_pos (by simp [hxa]),
        List.erase_cons_tail (by simpa using hxa), ih hxs]

/-- C8: during a live cross-container move whose resolved target container
does not contain the over identifier (for instance an empty container
surface), the active item is appended at the end of the target container and
removed from the old tracking container, which becomes the new tracking
container. -/
theorem c8_append_empty_target (s : AppState) (a c c2 o : String)
    (dt ob oh : ℚ)
    (hai : s.activeId = some a) (hac : s.activeContainer = some c)
    (hfc : findContainer s.items o = some c2) (hne : c ≠ c2)
    (hnotin : JsVal.str o ∉ s.items c2)
    (hmem : JsVal.str a ∈ s.items c) (hnd : (s.items c).Nodup) :
    (onDragOver s (some ⟨o, dt, ob, oh⟩)).items c2 = s.items c2 ++ [JsVal.str a] ∧
      (onDragOver s (some ⟨o, dt, ob, oh⟩)).items c = (s.items c).erase (JsVal.str a) ∧
      (onDragOver s (some ⟨o, dt, ob, oh⟩)).activeContainer = some c2 := by
  have hidx : jsIndexOf (s.items c2) (JsVal.str o) = -1 :=
    jsIndexOf_of_not_mem _ _ hnotin
  have hget : jsGet (s.items c) (jsIndexOf (s.items c) (JsVal.str a)) = JsVal.str a :=
    jsGet_jsIndexOf _ _ hmem
  simp only [onDragOver, hfc, hac, hai, if_pos hne, hidx, hget]
  refine ⟨?_, ?_, trivial⟩
  · rw [if_pos trivial]
    have hcond : ¬((-1 : Int) ≥ 0) := by norm_num
    rw [if_neg hcond]
    have hn : ((↑(s.items c2).length + 1 : Int)).toNat = (s.items c2).length + 1 := by
      omega
    rw [hn, List.take_all_of_le (by omega), List.drop_eq_nil_of_le (by omega),
      List.append_nil]
  · rw [if_neg hne, if_pos trivial]
    exact filter_ne_eq_erase _ _ hnd

/-- C8 witness. -/
theorem c8_append_empty_target_witness :
    (findContainer initItems "trash" = some "trash") ∧
      ("A" ≠ "trash") ∧
      (JsVal.str "trash" ∉ initItems "trash") ∧
      (JsVal.str "A1" ∈ initItems "A") ∧
      (initItems "A").Nodup ∧
      ((onDragOver
          { items := initItems, selectedItems := [], clonedItems := none,
            activeId := some "A1", activeContainer := some "A" }
          (some ⟨"trash", 0, 0, 0⟩)).items "trash" =
        initItems "trash" ++ [JsVal.str "A1"]) ∧
      ((onDragOver
          { items := initItems, selectedItems := [], clonedItems := none,
            activeId := some "A1", activeContainer := some "A" }
          (some ⟨"trash", 0, 0, 0⟩)).items "A" =
        (initItems "A").erase (JsVal.str "A1")) ∧
      ((onDragOver
          { items := initItems, selectedItems := [], clonedItems := none,
            activeId := some "A1", activeContainer := some "A" }
          (some ⟨"trash", 0, 0, 0⟩)).activeContainer = some "trash") := by
  have h := c8_append_empty_target
    { items := initItems, selectedItems := [], clonedItems := none,
      activeId := some "A1", activeContainer := some "A" }
    "A1" "A" "trash" "trash" 0 0 0 rfl rfl (by decide) (by decide) (by decide)
    (by decide) (by decide)
  exact ⟨by decide, by decide, by decide, by decide, by decide, h.1, h.2.1, h.2.2⟩

/-- C1 counterexample: after the gesture-event sequence that drags `A1` onto
the trash (start, move over trash, end on trash), the state is idle and the
original item identifier `A1` occurs in no container's sequence, so the
partition claim "every original identifier appears in exactly one container,
no omissions" fails at this reachable idle state. -/
theorem c1_counterexample :
    (∀ e ∈ [Ev.start "A1", Ev.move (some ⟨TRASH_DROPPABLE_ID, 0, 0, 0⟩),
        Ev.dragEnd (some TRASH_DROPPABLE_ID)], isGestureEv e = true) ∧
      (run initState [Ev.start "A1", Ev.move (some ⟨TRASH_DROPPABLE_ID, 0, 0, 0⟩),
        Ev.dragEnd (some TRASH_DROPPABLE_ID)]).activeId = none ∧
      JsVal.str "A1" ∈ initItems "A" ∧
      totalCount (JsVal.str "A1")
        (run initState [Ev.start "A1", Ev.move (some ⟨TRASH_DROPPABLE_ID, 0, 0, 0⟩),
          Ev.dragEnd (some TRASH_DROPPABLE_ID)]).items = 0 := by
  refine ⟨?_, ?_, ?_, ?_⟩ <;> decide

/-- C1 (amended): over the gesture-event alphabet (start/move/end/cancel),
every reachable state's membership mapping contains each item identifier at
most once across all containers, and only identifiers of the original item
set ever occur; identifiers of the original set may be absent, having been
discarded by trash commits. -/
theorem c1_partition_amended (evs : List Ev) (id : String)
    (hg : ∀ e ∈ evs, isGestureEv e = true) :
    totalCount (JsVal.str id) (run initState evs).items ≤ 1 ∧
      (0 < totalCount (JsVal.str id) (run initState evs).items →
        0 < totalCount (JsVal.str id) initItems) :=
  (SessionInv_run evs initState SessionInv_initState hg).2.1 id

/-- C1 witness. -/
theorem c1_partition_amended_witness :
    (∀ e ∈ [Ev.start "A1", Ev.move (some ⟨"B0", 0, 0, 0⟩),
        Ev.dragEnd (some "A1")], isGestureEv e = true) ∧
      (totalCount (JsVal.str "A1")
          (run initState [Ev.start "A1", Ev.move (some ⟨"B0", 0, 0, 0⟩),
            Ev.dragEnd (some "A1")]).items ≤ 1 ∧
        (0 < totalCount (JsVal.str "A1")
            (run initState [Ev.start "A1", Ev.move (some ⟨"B0", 0, 0, 0⟩),
              Ev.dragEnd (some "A1")]).items →
          0 < totalCount (JsVal.str "A1") initItems)) :=
  ⟨by decide, c1_partition_amended _ "A1" (by decide)⟩

/-- C10: starting from the empty selection, every run of the event machine
keeps the selection free of duplicate identifiers: shift-click toggling,
plain-click clearing, outside-click clearing and the implicit extension at
gesture start all preserve distinctness. -/
theorem c10_selection_nodup (evs : List Ev) :
    (run initState evs).selectedItems.Nodup := by
  have hstep : ∀ (s : AppState), s.selectedItems.Nodup →
      ∀ e, (step s e).selectedItems.Nodup := by
    intro s hs e
    cases e with
    | start a =>
      simp only [step, onDragStart]
      split_ifs with h
      · simp [List.nodup_append, hs, h.2]
      · exact hs
    | move d =>
      rw [show step s (.move d) = onDragOver s d from rfl, onDragOver_selectedItems]
      exact hs
    | dragEnd o =>
      rw [show step s (.dragEnd o) = onDragEnd s o from rfl, onDragEnd_selectedItems]
      exact hs
    | cancel =>
      rw [show step s .cancel = onDragCancel s from rfl, onDragCancel_selectedItems]
      exact hs
    | shiftClick id =>
      by_cases hmem : id ∈ s.selectedItems
      · simpa [step, onSelectionChanged, hmem] using hs.filter _
      · simp [step, onSelectionChanged, hmem, List.nodup_append, hs]
    | plainClick id => simp [step, onSelectionChanged]
    | outsideClick => simp [step, clearSelectionOutsideClick]
  suffices h : ∀ (s : AppState), s.selectedItems.Nodup →
      (run s evs).selectedItems.Nodup from h initState (by simp [initState])
  induction evs with
  | nil => exact fun s hs => hs
  | cons e rest ih => exact fun s hs => ih (step s e) (hstep s hs e)
